import Mathlib

/-!
# Shallow embedding of `web-render-rs` (`src/src/lib.rs`)

The repository is a small WASM fixed-timestep render loop.  This file embeds
the loop/lifecycle engine — the `Renderer<S>` struct, the builder methods, the
event/resize teardown, and the `next_frame`/`accumulate` scheduler — as pure
Lean functions and proves the specification claims about them.

Modelling conventions:
* `f64` wall-clock quantities are modelled as exact rationals (`ℚ`);
  `u32` counters as `ℕ`.
* `Rc<OnceCell<RefCell<S>>>` (the shared state cell) is `Option S`:
  `none` before `start`, `some s` after.
* The `OnceCell` callback slots are `Option` of the callback type;
  `OnceCell::set` is modelled by `onceCellSet` below.
* A user callback `fn(UpdateInfo<S>)` can mutate the state and, through the
  `UpdateInfo`/`RenderInfo` handle, call `exit()` and
  `set_updates_per_second(n)`; it can read `fixed_time_step`,
  `number_of_updates`, `number_of_renders` (and for render,
  `accumulated_time`, hence `blending_factor`).  Any sequence of such calls is
  captured by the callback returning the new state, whether `exit()` was
  called at least once, and the last argument of `set_updates_per_second`
  (if called).  `RenderInfo::re_accumulate` (which re-reads the wall clock
  mid-render) is not modelled; no claim refers to it, and every claim about
  `accumulated_time`/`blending_factor` is stated at the point immediately
  after the drain loop, before the render callback runs.
* Host handles (`HtmlCanvasElement`, `WebGl2RenderingContext`, the resize
  `Closure`) are not carried in the structure; the host-side subscription
  list of the canvas is modelled separately as `Host` for the
  listener-teardown claims.
-/

namespace WebRender

/-- What an update callback can read through `UpdateInfo`
(besides the mutable state): `fixed_time_step()`, `number_of_updates()`,
`number_of_renders()`. -/
structure UpdateView where
  fixed_time_step : ℚ
  number_of_updates : ℕ
  number_of_renders : ℕ
deriving Repr

/-- What a render callback can read through `RenderInfo`: the same as
`UpdateView` plus `accumulated_time` (from which `blending_factor()` is
computed). -/
structure RenderView where
  fixed_time_step : ℚ
  accumulated_time : ℚ
  number_of_updates : ℕ
  number_of_renders : ℕ
deriving Repr

/-- Net effect of one user callback invocation: the new state, whether
`exit()` was called at least once during the invocation, and the last value
passed to `set_updates_per_second` (or `none` if it was never called). -/
structure CbOut (S : Type) where
  state : S
  calledExit : Bool
  newUps : Option ℕ

/-- `fn(UpdateInfo<S>)` from the source. -/
def UpdateCb (S : Type) := S → UpdateView → CbOut S

/-- `fn(RenderInfo<S>)` from the source. -/
def RenderCb (S : Type) := S → RenderView → CbOut S

/-- `fn(&mut S, (u32, u32)) -> (u32, u32)` — the resize hook. -/
def ResizeCb (S : Type) := S → ℕ × ℕ → S × (ℕ × ℕ)

/-- `fn(&mut S, web_sys::Event)` — an event callback; the event type is a
parameter `E`. -/
def EventCb (S E : Type) := S → E → S

/-- A registered event listener as recorded in `Renderer::event_listeners`:
its `event_type` string and an identifier of its boxed closure (two distinct
`Closure` allocations are distinct callbacks to the DOM even when they wrap
the same `fn`). -/
structure EventListenerRec where
  event_type : String
  closureId : ℕ
deriving DecidableEq, Repr

/-- The `Renderer<S>` struct (`src/src/lib.rs`, lines 7–32), host handles
omitted. -/
structure Renderer (S : Type) where
  state : Option S
  on_update : Option (UpdateCb S)
  on_render : Option (RenderCb S)
  on_resize : Option (ResizeCb S)
  event_listeners : List EventListenerRec
  updates_per_second : ℕ
  fixed_time_step : ℚ
  max_frame_time : ℚ
  accumulated_time : ℚ
  exit : Bool
  previous_instant : ℚ
  number_of_updates : ℕ
  number_of_renders : ℕ

/-- The field initialisation of `Renderer::from_canvas`
(`src/src/lib.rs`, lines 129–151): every scheduler field starts at zero,
`exit` at `false`, every cell empty. -/
def from_canvas (S : Type) : Renderer S where
  state := none
  on_update := none
  on_render := none
  on_resize := none
  event_listeners := []
  updates_per_second := 0
  fixed_time_step := 0
  max_frame_time := 0
  accumulated_time := 0
  exit := false
  previous_instant := 0
  number_of_updates := 0
  number_of_renders := 0

/-- `OnceCell::set`: stores the value if the cell is empty, otherwise leaves
the cell unchanged; the boolean reports success (`Ok(())` vs `Err(value)`). -/
def onceCellSet {A : Type} (cell : Option A) (v : A) : Option A × Bool :=
  match cell with
  | none => (some v, true)
  | some old => (some old, false)

/-- `Renderer::with_on_update` (lines 184–187):
`self.on_update.set(on_update).map_err(|_| ())?; Ok(self)`.
On failure the builder (taken by value) is dropped and `Err(())` returned. -/
def with_on_update {S : Type} (r : Renderer S) (f : UpdateCb S) :
    Except Unit (Renderer S) :=
  let c := onceCellSet r.on_update f
  if c.2 then .ok { r with on_update := c.1 } else .error ()

/-- `Renderer::with_on_render` (lines 202–205). -/
def with_on_render {S : Type} (r : Renderer S) (f : RenderCb S) :
    Except Unit (Renderer S) :=
  let c := onceCellSet r.on_render f
  if c.2 then .ok { r with on_render := c.1 } else .error ()

/-- `Renderer::with_on_resize` (lines 252–255). -/
def with_on_resize {S : Type} (r : Renderer S) (f : ResizeCb S) :
    Except Unit (Renderer S) :=
  let c := onceCellSet r.on_resize f
  if c.2 then .ok { r with on_resize := c.1 } else .error ()

/-- The state-mutating part of `Renderer::start` (lines 155–162), before it
hands control to `next_frame`:
`let _ = self.state.set(...)` (a silent no-op if already set),
`updates_per_second = updates_per_second`,
`fixed_time_step = 1.0 / updates_per_second`,
`max_frame_time = max_frame_time`.  No other field is touched; in
particular `previous_instant` keeps its constructed value. -/
def start {S : Type} (r : Renderer S) (s : S) (updates_per_second : ℕ)
    (max_frame_time : ℚ) : Renderer S :=
  { r with
    state := match r.state with
             | none => some s
             | some old => some old
    updates_per_second := updates_per_second
    fixed_time_step := 1 / (updates_per_second : ℚ)
    max_frame_time := max_frame_time }

/-- `Renderer::accumulate` (lines 282–288):
`elapsed = current_instant - previous_instant`, clamped from above to
`max_frame_time` (no lower clamp), then added to `accumulated_time`.
`previous_instant` is NOT updated here (that happens at the end of
`next_frame`). -/
def accumulate {S : Type} (r : Renderer S) (current_instant : ℚ) :
    Renderer S :=
  let elapsed := current_instant - r.previous_instant
  let elapsed := if elapsed > r.max_frame_time then r.max_frame_time
                 else elapsed
  { r with accumulated_time := r.accumulated_time + elapsed }

/-- `Renderer::update` (lines 188–195): if an `on_update` callback is set,
invoke it once with exclusive access to the state and the renderer.  The
second component counts user-callback invocations (0 or 1).  The source
`unwrap`s the state cell; a tick only ever runs after `start` has populated
it, so the `state = none` branch (a panic in the source) is modelled as a
no-op and is unreachable in every theorem below. -/
def update {S : Type} (r : Renderer S) : Renderer S × ℕ :=
  match r.on_update with
  | none => (r, 0)
  | some f =>
    match r.state with
    | none => (r, 0)
    | some s =>
      let out := f s ⟨r.fixed_time_step, r.number_of_updates,
                      r.number_of_renders⟩
      ({ r with
          state := some out.state
          exit := r.exit || out.calledExit
          updates_per_second := out.newUps.getD r.updates_per_second }, 1)

/-- `Renderer::render` (lines 206–213): same shape as `update`, with the
render view. -/
def render {S : Type} (r : Renderer S) : Renderer S × ℕ :=
  match r.on_render with
  | none => (r, 0)
  | some f =>
    match r.state with
    | none => (r, 0)
    | some s =>
      let out := f s ⟨r.fixed_time_step, r.accumulated_time,
                      r.number_of_updates, r.number_of_renders⟩
      ({ r with
          state := some out.state
          exit := r.exit || out.calledExit
          updates_per_second := out.newUps.getD r.updates_per_second }, 1)

theorem update_accumulated_time {S : Type} (r : Renderer S) :
    (update r).1.accumulated_time = r.accumulated_time := by
  cases h : r.on_update <;> cases hs : r.state <;> simp [update, h, hs]

theorem update_fixed_time_step {S : Type} (r : Renderer S) :
    (update r).1.fixed_time_step = r.fixed_time_step := by
  cases h : r.on_update <;> cases hs : r.state <;> simp [update, h, hs]

theorem update_number_of_updates {S : Type} (r : Renderer S) :
    (update r).1.number_of_updates = r.number_of_updates := by
  cases h : r.on_update <;> cases hs : r.state <;> simp [update, h, hs]

theorem update_number_of_renders {S : Type} (r : Renderer S) :
    (update r).1.number_of_renders = r.number_of_renders := by
  cases h : r.on_update <;> cases hs : r.state <;> simp [update, h, hs]

theorem update_on_update {S : Type} (r : Renderer S) :
    (update r).1.on_update = r.on_update := by
  cases h : r.on_update <;> cases hs : r.state <;> simp [update, h, hs]

theorem update_on_render {S : Type} (r : Renderer S) :
    (update r).1.on_render = r.on_render := by
  cases h : r.on_update <;> cases hs : r.state <;> simp [update, h, hs]

theorem update_previous_instant {S : Type} (r : Renderer S) :
    (update r).1.previous_instant = r.previous_instant := by
  cases h : r.on_update <;> cases hs : r.state <;> simp [update, h, hs]

theorem update_max_frame_time {S : Type} (r : Renderer S) :
    (update r).1.max_frame_time = r.max_frame_time := by
  cases h : r.on_update <;> cases hs : r.state <;> simp [update, h, hs]

theorem update_none {S : Type} (r : Renderer S) (h : r.on_update = none) :
    update r = (r, 0) := by
  unfold update
  rw [h]

/-- One iteration of the drain-loop body of `next_frame` (lines 265–268):
`Self::update(&mut self); self.accumulated_time -= self.fixed_time_step;
self.number_of_updates += 1;`.  The second component is the number of user
update-callback invocations of the iteration (0 or 1). -/
def drainStep {S : Type} (r : Renderer S) : Renderer S × ℕ :=
  let u := update r
  ({ u.1 with
      accumulated_time := u.1.accumulated_time - u.1.fixed_time_step
      number_of_updates := u.1.number_of_updates + 1 }, u.2)

theorem drainStep_accumulated_time {S : Type} (r : Renderer S) :
    (drainStep r).1.accumulated_time
      = r.accumulated_time - r.fixed_time_step := by
  simp [drainStep, update_accumulated_time, update_fixed_time_step]

theorem drainStep_fixed_time_step {S : Type} (r : Renderer S) :
    (drainStep r).1.fixed_time_step = r.fixed_time_step := by
  simp [drainStep, update_fixed_time_step]

theorem drainStep_number_of_updates {S : Type} (r : Renderer S) :
    (drainStep r).1.number_of_updates = r.number_of_updates + 1 := by
  simp [drainStep, update_number_of_updates]

theorem drainStep_number_of_renders {S : Type} (r : Renderer S) :
    (drainStep r).1.number_of_renders = r.number_of_renders := by
  simp [drainStep, update_number_of_renders]

theorem drainStep_max_frame_time {S : Type} (r : Renderer S) :
    (drainStep r).1.max_frame_time = r.max_frame_time := by
  simp [drainStep, update_max_frame_time]

theorem drainStep_previous_instant {S : Type} (r : Renderer S) :
    (drainStep r).1.previous_instant = r.previous_instant := by
  simp [drainStep, update_previous_instant]

theorem drainStep_on_update {S : Type} (r : Renderer S) :
    (drainStep r).1.on_update = r.on_update := by
  simp [drainStep, update_on_update]

theorem drainStep_on_render {S : Type} (r : Renderer S) :
    (drainStep r).1.on_render = r.on_render := by
  simp [drainStep, update_on_render]

/-- The drain loop of `next_frame` (lines 264–269):
`while accumulated_time >= fixed_time_step { update(); accumulated_time -=
fixed_time_step; number_of_updates += 1; }`.
The `0 < fixed_time_step` conjunct in the guard only serves termination of
the Lean recursion: with a non-positive step the source loop would never
terminate once entered, and every theorem below assumes a positive step,
under which the guard coincides with the source's.  The second component is
the total number of user update-callback invocations made by the loop. -/
def drainLoop {S : Type} (r : Renderer S) : Renderer S × ℕ :=
  if h : 0 < r.fixed_time_step ∧ r.fixed_time_step ≤ r.accumulated_time then
    let s := drainStep r
    let rest := drainLoop s.1
    (rest.1, s.2 + rest.2)
  else (r, 0)
termination_by (⌊r.accumulated_time / r.fixed_time_step⌋).toNat
decreasing_by
  simp only [drainStep_accumulated_time, drainStep_fixed_time_step]
  obtain ⟨hf, hle⟩ := h
  have h1 : (1 : ℚ) ≤ r.accumulated_time / r.fixed_time_step :=
    (one_le_div hf).mpr hle
  have hfl : 1 ≤ ⌊r.accumulated_time / r.fixed_time_step⌋ := by
    exact_mod_cast Int.le_floor.mpr (by exact_mod_cast h1)
  have hsub : (r.accumulated_time - r.fixed_time_step) / r.fixed_time_step
      = r.accumulated_time / r.fixed_time_step - 1 := by
    field_simp
  rw [hsub]
  have : ⌊r.accumulated_time / r.fixed_time_step - 1⌋
      = ⌊r.accumulated_time / r.fixed_time_step⌋ - 1 := by
    exact_mod_cast Int.floor_sub_int (r.accumulated_time / r.fixed_time_step) 1
  rw [this]
  omega

theorem drainLoop_eq_pos {S : Type} (r : Renderer S)
    (h : 0 < r.fixed_time_step ∧ r.fixed_time_step ≤ r.accumulated_time) :
    drainLoop r = ((drainLoop (drainStep r).1).1,
                   (drainStep r).2 + (drainLoop (drainStep r).1).2) := by
  rw [drainLoop, dif_pos h]

theorem drainLoop_eq_neg {S : Type} (r : Renderer S)
    (h : ¬(0 < r.fixed_time_step ∧ r.fixed_time_step ≤ r.accumulated_time)) :
    drainLoop r = (r, 0) := by
  rw [drainLoop, dif_neg h]

theorem render_accumulated_time {S : Type} (r : Renderer S) :
    (render r).1.accumulated_time = r.accumulated_time := by
  cases h : r.on_render <;> cases hs : r.state <;> simp [render, h, hs]

theorem render_fixed_time_step {S : Type} (r : Renderer S) :
    (render r).1.fixed_time_step = r.fixed_time_step := by
  cases h : r.on_render <;> cases hs : r.state <;> simp [render, h, hs]

theorem render_number_of_updates {S : Type} (r : Renderer S) :
    (render r).1.number_of_updates = r.number_of_updates := by
  cases h : r.on_render <;> cases hs : r.state <;> simp [render, h, hs]

theorem render_number_of_renders {S : Type} (r : Renderer S) :
    (render r).1.number_of_renders = r.number_of_renders := by
  cases h : r.on_render <;> cases hs : r.state <;> simp [render, h, hs]

theorem render_max_frame_time {S : Type} (r : Renderer S) :
    (render r).1.max_frame_time = r.max_frame_time := by
  cases h : r.on_render <;> cases hs : r.state <;> simp [render, h, hs]

theorem render_on_update {S : Type} (r : Renderer S) :
    (render r).1.on_update = r.on_update := by
  cases h : r.on_render <;> cases hs : r.state <;> simp [render, h, hs]

theorem render_on_render {S : Type} (r : Renderer S) :
    (render r).1.on_render = r.on_render := by
  cases h : r.on_render <;> cases hs : r.state <;> simp [render, h, hs]

theorem render_none {S : Type} (r : Renderer S) (h : r.on_render = none) :
    render r = (r, 0) := by
  unfold render
  rw [h]

/-- The drain loop can only alter `accumulated_time`, `number_of_updates`
and the callback-touchable fields; every other scheduler field is
preserved. -/
theorem drainLoop_preserved {S : Type} (r : Renderer S) :
    (drainLoop r).1.fixed_time_step = r.fixed_time_step
    ∧ (drainLoop r).1.max_frame_time = r.max_frame_time
    ∧ (drainLoop r).1.number_of_renders = r.number_of_renders
    ∧ (drainLoop r).1.previous_instant = r.previous_instant
    ∧ (drainLoop r).1.on_update = r.on_update
    ∧ (drainLoop r).1.on_render = r.on_render := by
  induction r using drainLoop.induct with
  | case1 r h s ih =>
    rw [drainLoop_eq_pos r h]
    simp only [s] at ih
    simpa [drainStep_fixed_time_step, drainStep_max_frame_time,
      drainStep_number_of_renders, drainStep_previous_instant,
      drainStep_on_update, drainStep_on_render] using ih
  | case2 r h =>
    rw [drainLoop_eq_neg r h]
    exact ⟨rfl, rfl, rfl, rfl, rfl, rfl⟩

/-- Exact behaviour of the drain loop on the accumulator and the update
counter: starting from a nonnegative accumulator and a positive step, the
loop runs exactly `⌊accumulated_time / fixed_time_step⌋` iterations, leaving
`accumulated_time - fixed_time_step * ⌊accumulated_time / fixed_time_step⌋`
in the accumulator. -/
theorem drainLoop_count {S : Type} (r : Renderer S)
    (hf : 0 < r.fixed_time_step) (ha : 0 ≤ r.accumulated_time) :
    (drainLoop r).1.accumulated_time
      = r.accumulated_time
        - r.fixed_time_step * ⌊r.accumulated_time / r.fixed_time_step⌋
    ∧ (drainLoop r).1.number_of_updates
      = r.number_of_updates
        + (⌊r.accumulated_time / r.fixed_time_step⌋).toNat := by
  induction r using drainLoop.induct with
  | case1 r h s ih =>
    obtain ⟨hf0, hle⟩ := h
    simp only [s] at ih
    have hra := drainStep_accumulated_time r
    have hrf := drainStep_fixed_time_step r
    have hrn := drainStep_number_of_updates r
    have hsub : (r.accumulated_time - r.fixed_time_step) / r.fixed_time_step
        = r.accumulated_time / r.fixed_time_step - 1 := by
      field_simp
    have hflsub : ⌊(r.accumulated_time - r.fixed_time_step)
          / r.fixed_time_step⌋
        = ⌊r.accumulated_time / r.fixed_time_step⌋ - 1 := by
      rw [hsub]
      exact_mod_cast Int.floor_sub_int
        (r.accumulated_time / r.fixed_time_step) 1
    have hfl1 : 1 ≤ ⌊r.accumulated_time / r.fixed_time_step⌋ :=
      Int.le_floor.mpr (by exact_mod_cast (one_le_div hf0).mpr hle)
    have hle2 : (0 : ℚ) ≤ (drainStep r).1.accumulated_time := by
      rw [hra]; linarith
    obtain ⟨ihacc, ihnou⟩ := ih (by rw [hrf]; exact hf0) hle2
    rw [hra, hrf] at ihacc
    rw [hra, hrf, hrn] at ihnou
    rw [hflsub] at ihacc ihnou
    rw [drainLoop_eq_pos r ⟨hf0, hle⟩]
    refine ⟨?_, ?_⟩
    · show (drainLoop (drainStep r).1).1.accumulated_time = _
      rw [ihacc]
      push_cast
      ring
    · show (drainLoop (drainStep r).1).1.number_of_updates = _
      rw [ihnou]
      omega
  | case2 r h =>
    have hlt : r.accumulated_time < r.fixed_time_step := by
      by_contra hc
      exact h ⟨hf, le_of_not_lt hc⟩
    have hfl : ⌊r.accumulated_time / r.fixed_time_step⌋ = 0 := by
      rw [Int.floor_eq_zero_iff]
      constructor
      · exact div_nonneg ha hf.le
      · exact (div_lt_one hf).mpr hlt
    rw [drainLoop_eq_neg r h]
    simp [hfl]

/-- `accumulate` adds the elapsed time, clamped from above to
`max_frame_time`, to the accumulator: the new accumulator is the old one
plus `min (t - previous_instant) max_frame_time`. -/
theorem accumulate_accumulated_time {S : Type} (r : Renderer S) (t : ℚ) :
    (accumulate r t).accumulated_time
      = r.accumulated_time + min (t - r.previous_instant) r.max_frame_time := by
  have he : (accumulate r t).accumulated_time
      = r.accumulated_time
        + (if t - r.previous_instant > r.max_frame_time then r.max_frame_time
           else t - r.previous_instant) := rfl
  rw [he]
  split_ifs with h
  · rw [min_eq_right (le_of_lt h)]
  · rw [min_eq_left (not_lt.mp h)]

theorem accumulate_fixed_time_step {S : Type} (r : Renderer S) (t : ℚ) :
    (accumulate r t).fixed_time_step = r.fixed_time_step := rfl

theorem accumulate_only_accumulates {S : Type} (r : Renderer S) (t : ℚ) :
    (accumulate r t).max_frame_time = r.max_frame_time
    ∧ (accumulate r t).previous_instant = r.previous_instant
    ∧ (accumulate r t).number_of_updates = r.number_of_updates
    ∧ (accumulate r t).number_of_renders = r.number_of_renders
    ∧ (accumulate r t).on_update = r.on_update
    ∧ (accumulate r t).on_render = r.on_render
    ∧ (accumulate r t).exit = r.exit
    ∧ (accumulate r t).state = r.state :=
  ⟨rfl, rfl, rfl, rfl, rfl, rfl, rfl, rfl⟩

/-- When no update callback is configured, the drain loop makes no user
callback invocation and leaves state, exit flag and `updates_per_second`
untouched — it still drains time and counts iterations. -/
theorem drainLoop_none {S : Type} (r : Renderer S) (h : r.on_update = none) :
    (drainLoop r).2 = 0
    ∧ (drainLoop r).1.state = r.state
    ∧ (drainLoop r).1.exit = r.exit
    ∧ (drainLoop r).1.updates_per_second = r.updates_per_second := by
  induction r using drainLoop.induct with
  | case1 r hg s ih =>
    simp only [s] at ih
    have hstep : drainStep r = ({ r with
        accumulated_time := r.accumulated_time - r.fixed_time_step
        number_of_updates := r.number_of_updates + 1 }, 0) := by
      simp [drainStep, update_none r h]
    have h' : (drainStep r).1.on_update = none := by rw [hstep]; exact h
    obtain ⟨ih0, ih1, ih2, ih3⟩ := ih h'
    rw [drainLoop_eq_pos r hg]
    exact ⟨by rw [ih0, hstep], by rw [ih1, hstep],
           by rw [ih2, hstep], by rw [ih3, hstep]⟩
  | case2 r hg =>
    rw [drainLoop_eq_neg r hg]
    exact ⟨rfl, rfl, rfl, rfl⟩

/-- `RenderInfo::blending_factor` (lines 90–92):
`accumulated_time / fixed_time_step`. -/
def blending_factor {S : Type} (r : Renderer S) : ℚ :=
  r.accumulated_time / r.fixed_time_step

/-- Outcome of one invocation of `next_frame`: the renderer it hands to the
host (inside the requested-animation-frame closure), whether
`request_animation_frame` was called, and how many user update / render
callback invocations the tick made. -/
structure TickResult (S : Type) where
  renderer : Renderer S
  requestedNextFrame : Bool
  updateCalls : ℕ
  renderCalls : ℕ

/-- `Renderer::next_frame` (lines 257–280), one host tick at wall-clock
instant `current_instant`:
`if self.exit { return }` — the flag is checked at the START of the tick;
on this branch the source returns, dropping `self` (the `Drop` impls then
tear down the host subscriptions, modelled separately by `dropRenderer`),
and does not call `request_animation_frame`.
Otherwise: `accumulate`, the drain loop, `render`,
`number_of_renders += 1`, `previous_instant = current_instant`, and then —
unconditionally — `request_animation_frame(move || self.next_frame())`. -/
def next_frame {S : Type} (r : Renderer S) (current_instant : ℚ) :
    TickResult S :=
  if r.exit then ⟨r, false, 0, 0⟩
  else
    let r1 := accumulate r current_instant
    let d := drainLoop r1
    let rr := render d.1
    let r2 : Renderer S :=
      { rr.1 with
        number_of_renders := rr.1.number_of_renders + 1
        previous_instant := current_instant }
    ⟨r2, true, d.2, rr.2⟩

theorem next_frame_eq_exit {S : Type} (r : Renderer S) (t : ℚ)
    (h : r.exit = true) : next_frame r t = ⟨r, false, 0, 0⟩ := by
  rw [next_frame, if_pos (by simp [h])]

theorem next_frame_eq_run {S : Type} (r : Renderer S) (t : ℚ)
    (h : r.exit = false) :
    next_frame r t
      = ⟨{ (render (drainLoop (accumulate r t)).1).1 with
            number_of_renders
              := (render (drainLoop (accumulate r t)).1).1.number_of_renders
                   + 1
            previous_instant := t }, true,
          (drainLoop (accumulate r t)).2,
          (render (drainLoop (accumulate r t)).1).2⟩ := by
  rw [next_frame, if_neg (by simp [h])]

/-- The sequence of ticks the host delivers after a tick chain starting at
`r`: fold `next_frame` over the list of presentation instants, totalling the
user update / render callback invocations.  (The source self-reschedules via
`request_animation_frame`; the instants list is the host's choice.) -/
def runTicks {S : Type} (r : Renderer S) : List ℚ → Renderer S × ℕ × ℕ
  | [] => (r, 0, 0)
  | t :: ts =>
    let k := next_frame r t
    let rest := runTicks k.renderer ts
    (rest.1, k.updateCalls + rest.2.1, k.renderCalls + rest.2.2)

/-- Host-side subscription state of the canvas: the `addEventListener`
registrations currently alive, and whether the `ResizeObserver` is
observing the canvas. -/
structure Host where
  subs : List EventListenerRec
  resizeObserving : Bool

/-- `canvas.add_event_listener_with_callback` (line 236). -/
def hostAdd (h : Host) (l : EventListenerRec) : Host :=
  { h with subs := h.subs ++ [l] }

/-- `canvas.remove_event_listener_with_callback` (line 41): removes the
registration of this exact `(event_type, closure)` pair. -/
def hostRemove (h : Host) (l : EventListenerRec) : Host :=
  { h with subs := h.subs.filter (fun p => p ≠ l) }

/-- `EventListener::drop` (lines 39–43). -/
def dropEventListener (h : Host) (l : EventListenerRec) : Host :=
  hostRemove h l

/-- Dropping a `Renderer` (lines 95–99 plus the compiler-inserted drops of
its fields): `Drop::drop` disconnects the resize observer, and the drop of
the `event_listeners` vector drops each `EventListener`, removing its
canvas subscription. -/
def dropRenderer {S : Type} (r : Renderer S) (h : Host) : Host :=
  let h := r.event_listeners.foldl dropEventListener h
  { h with resizeObserving := false }

/-- Number of listener-closure invocations the host performs when it emits
one event of type `ty` on the canvas: one per live matching subscription. -/
def hostInvocations (h : Host) (ty : String) : ℕ :=
  (h.subs.filter (fun l => l.event_type = ty)).length

/-- `Renderer::with_on_event` (lines 229–245): registers the closure on the
canvas immediately and records it in `event_listeners` for teardown.
`cid` identifies the freshly boxed closure.  The user callback itself is
modelled by `eventClosure`; the model host accepts every subscription, so
the `Result` is always `Ok`. -/
def with_on_event {S : Type} (r : Renderer S) (h : Host)
    (event_type : String) (cid : ℕ) : Renderer S × Host :=
  ({ r with event_listeners := r.event_listeners ++ [⟨event_type, cid⟩] },
   hostAdd h ⟨event_type, cid⟩)

/-- The closure built inside `with_on_event` (lines 231–235): when the host
delivers an event, the closure checks the shared state cell; if it is still
empty (the loop has not been started) it does nothing, otherwise it invokes
the user callback exactly once with exclusive mutable access to the state.
The second component counts user-callback invocations. -/
def eventClosure {S E : Type} (on_event : EventCb S E) (state : Option S)
    (ev : E) : Option S × ℕ :=
  match state with
  | none => (none, 0)
  | some s => (some (on_event s ev), 1)

/-- A sequence of `with_on_event` registrations applied to a builder and the
host canvas. -/
def registerAll {S : Type} (rh : Renderer S × Host)
    (L : List (String × ℕ)) : Renderer S × Host :=
  L.foldl (fun rh p => with_on_event rh.1 rh.2 p.1 p.2) rh

theorem foldl_dropEventListener_subs (L : List EventListenerRec) :
    ∀ (h : Host), (∀ x ∈ h.subs, x ∈ L) →
      (L.foldl dropEventListener h).subs = [] := by
  induction L with
  | nil =>
    intro h hs
    simp only [List.foldl_nil]
    cases hh : h.subs with
    | nil => rfl
    | cons a tl =>
      exact absurd (hs a (by rw [hh]; exact List.mem_cons_self a tl))
        (by simp)
  | cons a L ih =>
    intro h hs
    simp only [List.foldl_cons]
    apply ih
    intro x hx
    have hx' : x ∈ h.subs ∧ x ≠ a := by
      simpa [dropEventListener, hostRemove, List.mem_filter] using hx
    rcases List.mem_cons.mp (hs x hx'.1) with h1 | h2
    · exact absurd h1 hx'.2
    · exact h2

theorem registerAll_invariant {S : Type} (L : List (String × ℕ)) :
    ∀ (r : Renderer S) (h : Host), h.subs = r.event_listeners →
      (registerAll (r, h) L).2.subs
        = (registerAll (r, h) L).1.event_listeners := by
  induction L with
  | nil => intro r h heq; exact heq
  | cons p L ih =>
    intro r h heq
    simp only [registerAll, List.foldl_cons]
    exact ih _ _ (by simp [with_on_event, hostAdd, heq])

/-- After the drain loop, the accumulator is nonnegative and strictly below
the (unchanged) step. -/
theorem drainLoop_acc_bounds {S : Type} (r : Renderer S)
    (hf : 0 < r.fixed_time_step) (ha : 0 ≤ r.accumulated_time) :
    0 ≤ (drainLoop r).1.accumulated_time
    ∧ (drainLoop r).1.accumulated_time < r.fixed_time_step := by
  obtain ⟨hacc, -⟩ := drainLoop_count r hf ha
  have h1 : (⌊r.accumulated_time / r.fixed_time_step⌋ : ℚ)
      ≤ r.accumulated_time / r.fixed_time_step :=
    Int.floor_le _
  have h2 : r.accumulated_time / r.fixed_time_step
      < ⌊r.accumulated_time / r.fixed_time_step⌋ + 1 :=
    Int.lt_floor_add_one _
  have h1' : (⌊r.accumulated_time / r.fixed_time_step⌋ : ℚ)
      * r.fixed_time_step ≤ r.accumulated_time :=
    (le_div_iff hf).mp h1
  have h2' : r.accumulated_time
      < (⌊r.accumulated_time / r.fixed_time_step⌋ + 1) * r.fixed_time_step :=
    (div_lt_iff hf).mp h2
  constructor
  · rw [hacc]; nlinarith [h1']
  · rw [hacc]; nlinarith [h2']

/-- **C1.** For every tick: after clamping the elapsed time
(`current_instant - previous_instant`) from above to `max_frame_time` and
adding it to `accumulated_time`, the drain loop runs exactly
`⌊accumulated_time_before / fixed_time_step⌋` update iterations (the exact
remainder equation is included), and the accumulator left after the loop is
`≥ 0` and `< fixed_time_step`.  Hypotheses: a positive step and a
nonnegative post-clamp accumulator, the invariants of normal operation
(`start` with `updates_per_second > 0` and a monotone host clock). -/
theorem tick_drain_count {S : Type} (r : Renderer S) (t : ℚ)
    (hf : 0 < r.fixed_time_step)
    (ha : 0 ≤ (accumulate r t).accumulated_time) :
    (accumulate r t).accumulated_time
      = r.accumulated_time + min (t - r.previous_instant) r.max_frame_time
    ∧ (drainLoop (accumulate r t)).1.number_of_updates
      = r.number_of_updates
        + (⌊(accumulate r t).accumulated_time / r.fixed_time_step⌋).toNat
    ∧ (drainLoop (accumulate r t)).1.accumulated_time
      = (accumulate r t).accumulated_time
        - r.fixed_time_step
          * ⌊(accumulate r t).accumulated_time / r.fixed_time_step⌋
    ∧ 0 ≤ (drainLoop (accumulate r t)).1.accumulated_time
    ∧ (drainLoop (accumulate r t)).1.accumulated_time < r.fixed_time_step := by
  have hf1 : 0 < (accumulate r t).fixed_time_step := hf
  obtain ⟨hacc, hnou⟩ := drainLoop_count (accumulate r t) hf1 ha
  obtain ⟨hb0, hb1⟩ := drainLoop_acc_bounds (accumulate r t) hf1 ha
  exact ⟨accumulate_accumulated_time r t, hnou, hacc, hb0, hb1⟩

theorem tick_drain_count_witness :
    ((0 : ℚ) < (start (from_canvas Unit) () 60 (1/10)).fixed_time_step
    ∧ 0 ≤ (accumulate (start (from_canvas Unit) () 60 (1/10))
            5).accumulated_time)
    ∧ (accumulate (start (from_canvas Unit) () 60 (1/10))
        5).accumulated_time = 1/10
    ∧ (drainLoop (accumulate (start (from_canvas Unit) () 60 (1/10))
        5)).1.number_of_updates = 6
    ∧ (drainLoop (accumulate (start (from_canvas Unit) () 60 (1/10))
        5)).1.accumulated_time = 0 := by
  have h1 : (0 : ℚ) < (start (from_canvas Unit) () 60 (1/10)).fixed_time_step := by
    norm_num [start, from_canvas]
  have hA : (accumulate (start (from_canvas Unit) () 60 (1/10))
      5).accumulated_time = 1/10 := by
    rw [accumulate_accumulated_time]
    norm_num [start, from_canvas]
  have h2 : 0 ≤ (accumulate (start (from_canvas Unit) () 60 (1/10))
      5).accumulated_time := by rw [hA]; norm_num
  obtain ⟨-, hnou, hacc, -, -⟩ :=
    tick_drain_count (start (from_canvas Unit) () 60 (1/10)) 5 h1 h2
  have hfts : (start (from_canvas Unit) () 60 (1/10)).fixed_time_step
      = 1/60 := by norm_num [start, from_canvas]
  have hfl : ⌊(accumulate (start (from_canvas Unit) () 60 (1/10))
      5).accumulated_time
        / (start (from_canvas Unit) () 60 (1/10)).fixed_time_step⌋ = 6 := by
    rw [hA, hfts]
    norm_num
  refine ⟨⟨h1, h2⟩, hA, ?_, ?_⟩
  · rw [hnou, hfl]
    norm_num [start, from_canvas]
    decide
  · rw [hacc, hfl, hA, hfts]
    norm_num

/-- **C4.** Immediately after the update-draining loop (the point at which
the render callback observes it), `blending_factor = accumulated_time /
fixed_time_step` lies in `[0, 1)`.  Hypotheses as in the drain-count claim:
positive step, nonnegative post-clamp accumulator. -/
theorem blending_factor_in_unit_interval {S : Type} (r : Renderer S) (t : ℚ)
    (hf : 0 < r.fixed_time_step)
    (ha : 0 ≤ (accumulate r t).accumulated_time) :
    0 ≤ blending_factor (drainLoop (accumulate r t)).1
    ∧ blending_factor (drainLoop (accumulate r t)).1 < 1 := by
  have hf1 : 0 < (accumulate r t).fixed_time_step := hf
  obtain ⟨hb0, hb1⟩ := drainLoop_acc_bounds (accumulate r t) hf1 ha
  have hfts : (drainLoop (accumulate r t)).1.fixed_time_step
      = r.fixed_time_step :=
    (drainLoop_preserved (accumulate r t)).1
  unfold blending_factor
  rw [hfts]
  constructor
  · exact div_nonneg hb0 hf.le
  · exact (div_lt_one hf).mpr hb1

theorem blending_factor_in_unit_interval_witness :
    ((0 : ℚ) < (start (from_canvas Unit) () 60 (1/10)).fixed_time_step
    ∧ 0 ≤ (accumulate (start (from_canvas Unit) () 60 (1/10))
            (1/100)).accumulated_time)
    ∧ 0 ≤ blending_factor
        (drainLoop (accumulate (start (from_canvas Unit) () 60 (1/10))
          (1/100))).1
    ∧ blending_factor
        (drainLoop (accumulate (start (from_canvas Unit) () 60 (1/10))
          (1/100))).1 < 1 := by
  have h1 : (0 : ℚ) < (start (from_canvas Unit) () 60 (1/10)).fixed_time_step := by
    norm_num [start, from_canvas]
  have hA : (accumulate (start (from_canvas Unit) () 60 (1/10))
      (1/100)).accumulated_time = 1/100 := by
    rw [accumulate_accumulated_time]
    norm_num [start, from_canvas]
  have h2 : 0 ≤ (accumulate (start (from_canvas Unit) () 60 (1/10))
      (1/100)).accumulated_time := by rw [hA]; norm_num
  obtain ⟨hb0, hb1⟩ :=
    blending_factor_in_unit_interval (start (from_canvas Unit) () 60 (1/10))
      (1/100) h1 h2
  exact ⟨⟨h1, h2⟩, hb0, hb1⟩

/-- **C5.** For all `updates_per_second > 0`, `start` sets
`fixed_time_step` to exactly `1 / updates_per_second` (arithmetic is exact
in the rational model of `f64`). -/
theorem start_fixed_time_step {S : Type} (r : Renderer S) (s : S)
    (updates_per_second : ℕ) (max_frame_time : ℚ)
    (hups : 0 < updates_per_second) :
    (start r s updates_per_second max_frame_time).fixed_time_step
      = 1 / (updates_per_second : ℚ) := rfl

theorem start_fixed_time_step_witness :
    0 < 60
    ∧ (start (from_canvas Unit) () 60 (1/10)).fixed_time_step
        = 1 / (60 : ℚ) :=
  ⟨by norm_num,
   start_fixed_time_step (from_canvas Unit) () 60 (1/10) (by norm_num)⟩

/-- **C6.** The listener closure registered by `with_on_event` is inert
before `start`: delivered an event while the shared state cell is empty it
invokes no user callback, raises no error and leaves the cell empty; the
same event delivered after `start` (cell populated) invokes the user
callback exactly once, with exclusive mutable access to the state (the
callback receives the state and its result becomes the new state). -/
theorem event_listener_inert_until_start {S E : Type} (on_event : EventCb S E)
    (s : S) (ev : E) :
    eventClosure on_event none ev = (none, 0)
    ∧ eventClosure on_event (some s) ev = (some (on_event s ev), 1) :=
  ⟨rfl, rfl⟩

/-- **C7.** Each builder slot is set at most once.  On a builder whose
slots are empty, the first `with_on_update` succeeds and stores the
callback; on any instance whose slot already holds the first callback, a
second call fails with the configuration error (`Err(())`), the underlying
`OnceCell::set` leaves the stored callback unchanged, and the update step
still invokes only the first callback.  The same holds for
`with_on_render` and `with_on_resize`. -/
theorem builder_slots_set_once {S : Type} (r : Renderer S)
    (f g : UpdateCb S) (fr gr : RenderCb S) (fz gz : ResizeCb S)
    (hu : r.on_update = none) (hr : r.on_render = none)
    (hz : r.on_resize = none) :
    with_on_update r f = .ok { r with on_update := some f }
    ∧ (∀ r' : Renderer S, r'.on_update = some f →
        with_on_update r' g = .error ()
        ∧ (onceCellSet r'.on_update g).1 = some f
        ∧ ∀ s : S, r'.state = some s →
            (update r').2 = 1
            ∧ (update r').1.state
              = some (f s ⟨r'.fixed_time_step, r'.number_of_updates,
                           r'.number_of_renders⟩).state)
    ∧ with_on_render r fr = .ok { r with on_render := some fr }
    ∧ (∀ r' : Renderer S, r'.on_render = some fr →
        with_on_render r' gr = .error ()
        ∧ (onceCellSet r'.on_render gr).1 = some fr)
    ∧ with_on_resize r fz = .ok { r with on_resize := some fz }
    ∧ (∀ r' : Renderer S, r'.on_resize = some fz →
        with_on_resize r' gz = .error ()
        ∧ (onceCellSet r'.on_resize gz).1 = some fz) := by
  refine ⟨?_, ?_, ?_, ?_, ?_, ?_⟩
  · simp [with_on_update, onceCellSet, hu]
  · intro r' h'
    refine ⟨by simp [with_on_update, onceCellSet, h'],
            by simp [onceCellSet, h'], ?_⟩
    intro s hs
    constructor
    · simp [update, h', hs]
    · simp [update, h', hs]
  · simp [with_on_render, onceCellSet, hr]
  · intro r' h'
    exact ⟨by simp [with_on_render, onceCellSet, h'],
           by simp [onceCellSet, h']⟩
  · simp [with_on_resize, onceCellSet, hz]
  · intro r' h'
    exact ⟨by simp [with_on_resize, onceCellSet, h'],
           by simp [onceCellSet, h']⟩

def cbU1 : UpdateCb Unit := fun s _ => ⟨s, false, none⟩
def cbU2 : UpdateCb Unit := fun s _ => ⟨s, true, none⟩
def cbR1 : RenderCb Unit := fun s _ => ⟨s, false, none⟩
def cbR2 : RenderCb Unit := fun s _ => ⟨s, true, none⟩
def cbZ1 : ResizeCb Unit := fun s p => (s, p)
def cbZ2 : ResizeCb Unit := fun s _ => (s, (0, 0))

theorem builder_slots_set_once_witness :
    ((from_canvas Unit).on_update = none
    ∧ (from_canvas Unit).on_render = none
    ∧ (from_canvas Unit).on_resize = none)
    ∧ with_on_update (from_canvas Unit) cbU1
        = .ok { from_canvas Unit with on_update := some cbU1 }
    ∧ with_on_update { from_canvas Unit with on_update := some cbU1 } cbU2
        = .error ()
    ∧ (onceCellSet ({ from_canvas Unit with
          on_update := some cbU1 } : Renderer Unit).on_update cbU2).1
        = some cbU1
    ∧ (update { from_canvas Unit with
          on_update := some cbU1, state := some () }).2 = 1
    ∧ with_on_render (from_canvas Unit) cbR1
        = .ok { from_canvas Unit with on_render := some cbR1 }
    ∧ with_on_render { from_canvas Unit with on_render := some cbR1 } cbR2
        = .error ()
    ∧ with_on_resize (from_canvas Unit) cbZ1
        = .ok { from_canvas Unit with on_resize := some cbZ1 }
    ∧ with_on_resize { from_canvas Unit with on_resize := some cbZ1 } cbZ2
        = .error () := by
  obtain ⟨hok, hdup, hrok, hrdup, hzok, hzdup⟩ :=
    builder_slots_set_once (from_canvas Unit) cbU1 cbU2 cbR1 cbR2 cbZ1 cbZ2
      rfl rfl rfl
  obtain ⟨hd1, hd2, -⟩ :=
    hdup { from_canvas Unit with on_update := some cbU1 } rfl
  obtain ⟨-, -, hd3⟩ :=
    hdup { from_canvas Unit with on_update := some cbU1, state := some () }
      rfl
  exact ⟨⟨rfl, rfl, rfl⟩, hok, hd1, hd2, (hd3 () rfl).1, hrok,
    (hrdup { from_canvas Unit with on_render := some cbR1 } rfl).1, hzok,
    (hzdup { from_canvas Unit with on_resize := some cbZ1 } rfl).1⟩

/-- **C8.** Destroying a renderer unsubscribes everything: for any sequence
of `with_on_event` registrations made on a fresh canvas (whose
`ResizeObserver` started observing in `from_canvas`), dropping the renderer
removes every canvas subscription and disconnects the resize observer, so a
host event of ANY type — in particular any previously-registered one —
emitted afterwards produces zero listener-closure invocations (hence zero
user-callback invocations). -/
theorem drop_unsubscribes_everything {S : Type}
    (regs : List (String × ℕ)) (ty : String) :
    (dropRenderer (registerAll (from_canvas S, ⟨[], true⟩) regs).1
        (registerAll (from_canvas S, ⟨[], true⟩) regs).2).subs = []
    ∧ (dropRenderer (registerAll (from_canvas S, ⟨[], true⟩) regs).1
        (registerAll (from_canvas S, ⟨[], true⟩) regs).2).resizeObserving
        = false
    ∧ hostInvocations
        (dropRenderer (registerAll (from_canvas S, ⟨[], true⟩) regs).1
          (registerAll (from_canvas S, ⟨[], true⟩) regs).2) ty = 0 := by
  have hinv := registerAll_invariant (S := S) regs (from_canvas S)
    ⟨[], true⟩ rfl
  have hsub : ∀ x ∈ (registerAll (from_canvas S, ⟨[], true⟩) regs).2.subs,
      x ∈ (registerAll (from_canvas S, ⟨[], true⟩) regs).1.event_listeners := by
    intro x hx
    rw [hinv] at hx
    exact hx
  have hnil := foldl_dropEventListener_subs
    (registerAll (from_canvas S, ⟨[], true⟩) regs).1.event_listeners
    (registerAll (from_canvas S, ⟨[], true⟩) regs).2 hsub
  have hdrop : (dropRenderer (registerAll (from_canvas S, ⟨[], true⟩) regs).1
      (registerAll (from_canvas S, ⟨[], true⟩) regs).2).subs = [] := hnil
  refine ⟨hdrop, rfl, ?_⟩
  rw [hostInvocations, hdrop]
  rfl

/-- **C9.** Counters count drain-loop iterations and ticks, not
user-callback invocations: in every non-exited tick (positive step,
nonnegative post-clamp accumulator) `number_of_renders` increments exactly
once and `number_of_updates` increments by the drain-iteration count,
whatever callbacks are configured; when no update callback exists the loop
still consumes the accumulated time (same remainder equation) while making
zero user update invocations, and when no render callback exists the tick
makes zero user render invocations. -/
theorem counters_count_iterations {S : Type} (r : Renderer S) (t : ℚ)
    (hx : r.exit = false) (hf : 0 < r.fixed_time_step)
    (ha : 0 ≤ (accumulate r t).accumulated_time) :
    (next_frame r t).renderer.number_of_renders = r.number_of_renders + 1
    ∧ (next_frame r t).renderer.number_of_updates
      = r.number_of_updates
        + (⌊(accumulate r t).accumulated_time / r.fixed_time_step⌋).toNat
    ∧ (drainLoop (accumulate r t)).1.accumulated_time
      = (accumulate r t).accumulated_time
        - r.fixed_time_step
          * ⌊(accumulate r t).accumulated_time / r.fixed_time_step⌋
    ∧ (r.on_update = none → (next_frame r t).updateCalls = 0
        ∧ (drainLoop (accumulate r t)).1.state = r.state)
    ∧ (r.on_render = none → (next_frame r t).renderCalls = 0) := by
  have hf1 : 0 < (accumulate r t).fixed_time_step := hf
  obtain ⟨hacc, hnou⟩ := drainLoop_count (accumulate r t) hf1 ha
  have hpres := drainLoop_preserved (accumulate r t)
  rw [next_frame_eq_run r t hx]
  refine ⟨?_, ?_, hacc, ?_, ?_⟩
  · show (render (drainLoop (accumulate r t)).1).1.number_of_renders + 1
        = r.number_of_renders + 1
    rw [render_number_of_renders, hpres.2.2.1]
    rfl
  · show (render (drainLoop (accumulate r t)).1).1.number_of_updates = _
    rw [render_number_of_updates, hnou]
    rfl
  · intro hu
    have hu1 : (accumulate r t).on_update = none := hu
    obtain ⟨hc0, hc1, -, -⟩ := drainLoop_none (accumulate r t) hu1
    exact ⟨hc0, hc1⟩
  · intro hrn
    have hrn1 : (drainLoop (accumulate r t)).1.on_render = none := by
      rw [hpres.2.2.2.2.2]
      exact hrn
    show (render (drainLoop (accumulate r t)).1).2 = 0
    rw [render_none _ hrn1]

theorem counters_count_iterations_witness :
    ((start (from_canvas Unit) () 60 (1/10)).exit = false
    ∧ (0 : ℚ) < (start (from_canvas Unit) () 60 (1/10)).fixed_time_step
    ∧ 0 ≤ (accumulate (start (from_canvas Unit) () 60 (1/10))
            (1/30)).accumulated_time)
    ∧ (next_frame (start (from_canvas Unit) () 60 (1/10))
        (1/30)).renderer.number_of_renders = 1
    ∧ (next_frame (start (from_canvas Unit) () 60 (1/10))
        (1/30)).renderer.number_of_updates = 2
    ∧ (next_frame (start (from_canvas Unit) () 60 (1/10))
        (1/30)).updateCalls = 0
    ∧ (next_frame (start (from_canvas Unit) () 60 (1/10))
        (1/30)).renderCalls = 0 := by
  have h0 : (start (from_canvas Unit) () 60 (1/10)).exit = false := rfl
  have h1 : (0 : ℚ) < (start (from_canvas Unit) () 60 (1/10)).fixed_time_step := by
    norm_num [start, from_canvas]
  have hA : (accumulate (start (from_canvas Unit) () 60 (1/10))
      (1/30)).accumulated_time = 1/30 := by
    rw [accumulate_accumulated_time]
    norm_num [start, from_canvas]
  have h2 : 0 ≤ (accumulate (start (from_canvas Unit) () 60 (1/10))
      (1/30)).accumulated_time := by rw [hA]; norm_num
  obtain ⟨hnor, hnou, -, hup, hrn⟩ :=
    counters_count_iterations (start (from_canvas Unit) () 60 (1/10))
      (1/30) h0 h1 h2
  have hfl : ⌊(accumulate (start (from_canvas Unit) () 60 (1/10))
      (1/30)).accumulated_time
        / (start (from_canvas Unit) () 60 (1/10)).fixed_time_step⌋ = 2 := by
    rw [hA]
    norm_num [start, from_canvas]
  refine ⟨⟨h0, h1, h2⟩, ?_, ?_, (hup rfl).1, hrn rfl⟩
  · rw [hnor]
    norm_num [start, from_canvas]
  · rw [hnou, hfl]
    norm_num [start, from_canvas]
    decide

/-- **C10.** `previous_instant` is initialised to `0` in `from_canvas` and
`start` does not touch it, so the first tick's elapsed time is the full
wall-clock instant `t` (time since the page's time origin), clamped to
`max_frame_time`: the accumulator right before the first drain is
`min t max_frame_time`, the first drain runs
`⌊min t max_frame_time / fixed_time_step⌋` updates — never more than
`⌊max_frame_time / fixed_time_step⌋`, and exactly that many whenever
`t ≥ max_frame_time`, however soon after construction `start` is called. -/
theorem first_tick_bursts {S : Type} (s : S) (ups : ℕ) (mft t : ℚ)
    (hups : 0 < ups) (hmft : 0 ≤ mft) (ht : 0 ≤ t) :
    (from_canvas S).previous_instant = 0
    ∧ (start (from_canvas S) s ups mft).previous_instant = 0
    ∧ (accumulate (start (from_canvas S) s ups mft) t).accumulated_time
      = min t mft
    ∧ (drainLoop (accumulate (start (from_canvas S) s ups mft) t)).1.number_of_updates
      = (⌊min t mft
          / (start (from_canvas S) s ups mft).fixed_time_step⌋).toNat
    ∧ (drainLoop (accumulate (start (from_canvas S) s ups mft) t)).1.number_of_updates
      ≤ (⌊mft / (start (from_canvas S) s ups mft).fixed_time_step⌋).toNat
    ∧ (mft ≤ t →
        (drainLoop (accumulate (start (from_canvas S) s ups mft) t)).1.number_of_updates
          = (⌊mft
              / (start (from_canvas S) s ups mft).fixed_time_step⌋).toNat) := by
  have hups' : (0 : ℚ) < (ups : ℚ) := by exact_mod_cast hups
  have hf : 0 < (start (from_canvas S) s ups mft).fixed_time_step := by
    show (0 : ℚ) < 1 / (ups : ℚ)
    positivity
  have hA : (accumulate (start (from_canvas S) s ups mft) t).accumulated_time
      = min t mft := by
    rw [accumulate_accumulated_time]
    show (0 : ℚ) + min (t - 0) mft = min t mft
    ring_nf
  have ha : 0 ≤ (accumulate (start (from_canvas S) s ups mft) t).accumulated_time := by
    rw [hA]
    exact le_min ht hmft
  obtain ⟨-, hnou⟩ := drainLoop_count
    (accumulate (start (from_canvas S) s ups mft) t) hf ha
  have hn0 : (accumulate (start (from_canvas S) s ups mft)
      t).number_of_updates = 0 := rfl
  rw [hn0, hA, accumulate_fixed_time_step] at hnou
  have hnou' : (drainLoop (accumulate (start (from_canvas S) s ups mft)
        t)).1.number_of_updates
      = (⌊min t mft
          / (start (from_canvas S) s ups mft).fixed_time_step⌋).toNat := by
    rw [hnou]
    exact Nat.zero_add _
  have hmono : (⌊min t mft
        / (start (from_canvas S) s ups mft).fixed_time_step⌋).toNat
      ≤ (⌊mft / (start (from_canvas S) s ups mft).fixed_time_step⌋).toNat := by
    have hdiv : min t mft / (start (from_canvas S) s ups mft).fixed_time_step
        ≤ mft / (start (from_canvas S) s ups mft).fixed_time_step :=
      (div_le_div_right hf).mpr (min_le_right t mft)
    exact Int.toNat_le_toNat (Int.floor_le_floor hdiv)
  refine ⟨rfl, rfl, hA, hnou', by rw [hnou']; exact hmono, ?_⟩
  intro hle
  rw [hnou', min_eq_right hle]

theorem first_tick_bursts_witness :
    (0 < 60 ∧ (0 : ℚ) ≤ 1/10 ∧ (0 : ℚ) ≤ 5)
    ∧ (start (from_canvas Unit) () 60 (1/10)).previous_instant = 0
    ∧ (accumulate (start (from_canvas Unit) () 60 (1/10))
        5).accumulated_time = 1/10
    ∧ (drainLoop (accumulate (start (from_canvas Unit) () 60 (1/10))
        5)).1.number_of_updates = 6
    ∧ (⌊(1/10 : ℚ)
        / (start (from_canvas Unit) () 60 (1/10)).fixed_time_step⌋).toNat
      = 6 := by
  obtain ⟨-, hprev, hA, hcount, -, hexact⟩ :=
    first_tick_bursts (S := Unit) () 60 (1/10) 5 (by norm_num) (by norm_num)
      (by norm_num)
  have hfts : (start (from_canvas Unit) () 60 (1/10)).fixed_time_step
      = 1/60 := by norm_num [start, from_canvas]
  have hmin : min (5 : ℚ) (1/10) = 1/10 :=
    min_eq_right (by norm_num)
  have hval : (⌊(1/10 : ℚ)
      / (start (from_canvas Unit) () 60 (1/10)).fixed_time_step⌋).toNat
      = 6 := by
    rw [hfts]
    norm_num
    decide
  refine ⟨⟨by norm_num, by norm_num, by norm_num⟩, hprev, ?_, ?_, hval⟩
  · rw [hA, hmin]
  · rw [hcount, hmin, hval]

/-- The update callback of the `set_updates_per_second` scenario: it calls
`set_updates_per_second(30)` and returns. -/
def setUps30 : UpdateCb Unit := fun s _ => ⟨s, false, some 30⟩

/-- The renderer state after the one drain iteration of the
`set_updates_per_second` scenario: the store to `updates_per_second`
happened, `fixed_time_step` did not change. -/
def c2After : Renderer Unit where
  state := some ()
  on_update := some setUps30
  on_render := none
  on_resize := none
  event_listeners := []
  updates_per_second := 30
  fixed_time_step := 1/60
  max_frame_time := 1
  accumulated_time := 0
  exit := false
  previous_instant := 0
  number_of_updates := 1
  number_of_renders := 0

/-- **C2 (code bug).** `set_updates_per_second` never causes
`fixed_time_step` to be recomputed: `fixed_time_step` is assigned only in
`start`, and `next_frame` reads `updates_per_second` nowhere, so the setter
is a dead store.  First conjunct: across ANY tick, whatever the callbacks
do, `fixed_time_step` is unchanged.  Remaining conjuncts evaluate the
failing scenario: start at 60 updates/s (`fixed_time_step = 1/60`,
`max_frame_time = 1`), the update callback calls
`set_updates_per_second(30)` during the first tick; afterwards
`updates_per_second = 30` (the store happened) yet `fixed_time_step` is
still `1/60`, not the `1/30` the claim requires for subsequent ticks. -/
theorem set_updates_per_second_never_recomputes :
    (∀ (S : Type) (r : Renderer S) (t : ℚ),
        (next_frame r t).renderer.fixed_time_step = r.fixed_time_step)
    ∧ with_on_update (from_canvas Unit) setUps30
        = .ok { from_canvas Unit with on_update := some setUps30 }
    ∧ (next_frame
        (start { from_canvas Unit with on_update := some setUps30 } () 60 1)
        (1/60)).renderer.updates_per_second = 30
    ∧ (next_frame
        (start { from_canvas Unit with on_update := some setUps30 } () 60 1)
        (1/60)).renderer.number_of_updates = 1
    ∧ (next_frame
        (start { from_canvas Unit with on_update := some setUps30 } () 60 1)
        (1/60)).renderer.fixed_time_step = 1/60
    ∧ ¬ (next_frame
        (start { from_canvas Unit with on_update := some setUps30 } () 60 1)
        (1/60)).renderer.fixed_time_step = 1/30 := by
  have hgen : ∀ (S : Type) (r : Renderer S) (t : ℚ),
      (next_frame r t).renderer.fixed_time_step = r.fixed_time_step := by
    intro S r t
    cases hx : r.exit with
    | true => rw [next_frame_eq_exit r t hx]
    | false =>
      rw [next_frame_eq_run r t hx]
      show (render (drainLoop (accumulate r t)).1).1.fixed_time_step
          = r.fixed_time_step
      rw [render_fixed_time_step, (drainLoop_preserved (accumulate r t)).1]
      rfl
  have hfts := hgen Unit
    (start { from_canvas Unit with on_update := some setUps30 } () 60 1)
    (1/60)
  have hr : (start { from_canvas Unit with on_update := some setUps30 }
      () 60 1).fixed_time_step = 1/60 := by
    norm_num [start]
  -- evaluate the concrete tick
  have hx : (start { from_canvas Unit with on_update := some setUps30 }
      () 60 1).exit = false := rfl
  have htick := next_frame_eq_run
    (start { from_canvas Unit with on_update := some setUps30 } () 60 1)
    (1/60) hx
  have hacc : accumulate
      (start { from_canvas Unit with on_update := some setUps30 } () 60 1)
      (1/60)
      = { start { from_canvas Unit with on_update := some setUps30 } () 60 1
          with accumulated_time := 1/60 } := by
    rw [accumulate]
    norm_num [start, from_canvas]
  have hg : 0 < (accumulate
        (start { from_canvas Unit with on_update := some setUps30 } () 60 1)
        (1/60)).fixed_time_step
      ∧ (accumulate
        (start { from_canvas Unit with on_update := some setUps30 } () 60 1)
        (1/60)).fixed_time_step
        ≤ (accumulate
        (start { from_canvas Unit with on_update := some setUps30 } () 60 1)
        (1/60)).accumulated_time := by
    rw [hacc]
    norm_num [start, from_canvas]
  have hstep : drainStep (accumulate
      (start { from_canvas Unit with on_update := some setUps30 } () 60 1)
      (1/60)) = (c2After, 1) := by
    rw [hacc]
    norm_num [drainStep, update, setUps30, start, from_canvas, c2After]
  have hstop : drainLoop c2After = (c2After, 0) :=
    drainLoop_eq_neg c2After (by norm_num [c2After])
  have hd : drainLoop (accumulate
      (start { from_canvas Unit with on_update := some setUps30 } () 60 1)
      (1/60)) = (c2After, 1) := by
    rw [drainLoop_eq_pos _ hg, hstep, hstop]
    rfl
  refine ⟨hgen, ?_, ?_, ?_, ?_, ?_⟩
  · simp [with_on_update, onceCellSet, from_canvas]
  · rw [htick, hd]
    rfl
  · rw [htick, hd]
    rfl
  · rw [htick, hd]
    rfl
  · rw [htick, hd, render_none c2After rfl]
    norm_num [c2After]

/-- A render callback that calls `exit()`. -/
def exitOnRender : RenderCb Unit := fun s _ => ⟨s, true, none⟩

/-- **C3 (counterexample).** The claim says a tick in which the exit flag
was set does not request another tick from the host frame scheduler.  Here
is a concrete tick during which the render callback calls `exit()` (the
flag is set at the end of the tick), and yet the tick DID call
`request_animation_frame`: lines 278–279 run unconditionally, because
`next_frame` checks `self.exit` only at its start (line 258). -/
theorem exit_tick_still_requests :
    (next_frame
      (start { from_canvas Unit with on_render := some exitOnRender } () 60 1)
      0).renderer.exit = true
    ∧ (next_frame
      (start { from_canvas Unit with on_render := some exitOnRender } () 60 1)
      0).renderCalls = 1
    ∧ (next_frame
      (start { from_canvas Unit with on_render := some exitOnRender } () 60 1)
      0).requestedNextFrame = true := by
  have hx : (start { from_canvas Unit with on_render := some exitOnRender }
      () 60 1).exit = false := rfl
  have htick := next_frame_eq_run
    (start { from_canvas Unit with on_render := some exitOnRender } () 60 1)
    0 hx
  have hacc : accumulate
      (start { from_canvas Unit with on_render := some exitOnRender } () 60 1)
      0
      = { start { from_canvas Unit with on_render := some exitOnRender }
          () 60 1 with accumulated_time := 0 } := by
    rw [accumulate]
    norm_num [start, from_canvas]
  have hd : drainLoop (accumulate
      (start { from_canvas Unit with on_render := some exitOnRender } () 60 1)
      0)
      = ({ start { from_canvas Unit with on_render := some exitOnRender }
          () 60 1 with accumulated_time := 0 }, 0) := by
    rw [hacc]
    exact drainLoop_eq_neg _ (by norm_num [start, from_canvas])
  refine ⟨?_, ?_, ?_⟩ <;> rw [htick, hd] <;> rfl

/-- **C3 (amended).** The exit flag is checked at the START of each tick,
not the end: a tick that begins with the flag already set returns
immediately — the renderer is untouched, no update or render callback is
invoked, and no further tick is requested (the source drops `self` there);
a tick that begins with the flag clear always requests exactly one next
tick, even if `exit()` is called during it; consequently once the flag is
set, any further host ticks invoke no update or render callback, ever. -/
theorem exit_checked_at_tick_start :
    (∀ (S : Type) (r : Renderer S) (t : ℚ), r.exit = true →
        next_frame r t = ⟨r, false, 0, 0⟩)
    ∧ (∀ (S : Type) (r : Renderer S) (t : ℚ), r.exit = false →
        (next_frame r t).requestedNextFrame = true)
    ∧ (∀ (S : Type) (r : Renderer S) (ts : List ℚ), r.exit = true →
        runTicks r ts = (r, 0, 0)) := by
  refine ⟨?_, ?_, ?_⟩
  · intro S r t hx
    exact next_frame_eq_exit r t hx
  · intro S r t hx
    rw [next_frame_eq_run r t hx]
  · intro S r ts hx
    induction ts with
    | nil => rfl
    | cons t ts ih =>
      simp only [runTicks, next_frame_eq_exit r t hx]
      rw [ih]
      rfl

theorem exit_checked_at_tick_start_witness :
    (({ from_canvas Unit with exit := true } : Renderer Unit).exit = true
    ∧ (from_canvas Unit).exit = false)
    ∧ next_frame ({ from_canvas Unit with exit := true } : Renderer Unit) 7
        = ⟨{ from_canvas Unit with exit := true }, false, 0, 0⟩
    ∧ (next_frame (from_canvas Unit) 0).requestedNextFrame = true
    ∧ runTicks ({ from_canvas Unit with exit := true } : Renderer Unit)
        [1, 2, 3]
        = ({ from_canvas Unit with exit := true }, 0, 0) := by
  obtain ⟨h1, h2, h3⟩ := exit_checked_at_tick_start
  exact ⟨⟨rfl, rfl⟩, h1 Unit _ 7 rfl, h2 Unit _ 0 rfl, h3 Unit _ [1, 2, 3] rfl⟩

end WebRender
